import Mathlib

/-!
Verification of the inventory-reconciliation core of HextechButEfficient.

The embedded code comes from two scripts:
* `src/scripts/skin_shards_stats/shards.py` (`SkinShardsStats.callback`):
  per-price-tier owned/not-owned statistics over the player loot feed.
* `src/scripts/skin_shards_stats/challenges.py` (`ChallengeCollectionStats`):
  catalog normalization, unowned-shard counting, ownership join and the
  final per-champion report rows.

Python dictionaries are embedded as association lists with Python's
semantics: assignment to an existing key updates the value in place
(keeping the key's position), assignment to a fresh key appends at the end,
and lookup returns the first (unique) matching entry.  Python integers are
embedded as `Int` where subtraction occurs (loot `count` arithmetic) and as
`Nat` for pure increment counters.
-/

/-- A record of the `/lol-loot/v1/player-loot` feed, with the fields the
scripts read: `displayCategories`, `itemStatus`, `disenchantRecipeName`,
`parentStoreItemId`, `value` and `count`. -/
structure LootItem where
  displayCategories : String
  itemStatus : String
  disenchantRecipeName : String
  parentStoreItemId : Int
  value : Int
  count : Int
deriving DecidableEq, Repr

/-- A Meraki catalog skin: the fields used are `id` and `isBase`. -/
structure Skin where
  id : Int
  isBase : Bool
deriving DecidableEq, Repr

/-- A Meraki catalog champion: string `key`, display `name`, numeric `id`
and the list of its skins.  The source's `champ_json` is a JSON object
keyed by the champion key; we embed its value list, each value carrying
its (duplicated) key field. -/
structure Champion where
  key : String
  name : String
  id : Int
  skins : List Skin
deriving DecidableEq, Repr

/-- A record of `/lol-inventory/v2/inventory/CHAMPION_SKIN`: only `itemId`
is read. -/
structure OwnedItem where
  itemId : Int
deriving DecidableEq, Repr

/-- The per-price-tier accumulator of `SkinShardsStats.callback`:
`{"owned": ..., "not_owned": ...}`. -/
structure TierStat where
  owned : Int
  not_owned : Int
deriving DecidableEq, Repr

/-! ### Python dict semantics over association lists -/

/-- Python dict lookup `d[k]` (as an `Option`): first entry with key `k`. -/
def dget? {K V : Type} [DecidableEq K] : List (K × V) → K → Option V
  | [], _ => none
  | (k', v) :: rest, k => if k' = k then some v else dget? rest k

/-- Lookup with a default: `d[k] if k in d else v0`. -/
def dgetD {K V : Type} [DecidableEq K] (d : List (K × V)) (k : K) (v0 : V) : V :=
  (dget? d k).getD v0

/-- Python dict assignment `d[k] = v`: update in place if the key exists,
append at the end otherwise. -/
def dinsert {K V : Type} [DecidableEq K] : List (K × V) → K → V → List (K × V)
  | [], k, v => [(k, v)]
  | (k', v') :: rest, k, v =>
      if k' = k then (k, v) :: rest else (k', v') :: dinsert rest k v

/-- Python in-place update `d[k] = f(d[k])` for a key that is present;
on an absent key the dict is returned unchanged (the embedded scripts only
apply it to present keys). -/
def dmodify {K V : Type} [DecidableEq K] : List (K × V) → K → (V → V) → List (K × V)
  | [], _, _ => []
  | (k', v) :: rest, k, f =>
      if k' = k then (k, f v) :: rest else (k', v) :: dmodify rest k f

/-- The `if k not in d: d[k] = 1 else: d[k] += 1` idiom of the source. -/
def dincr {K : Type} [DecidableEq K] : List (K × Nat) → K → List (K × Nat)
  | [], k => [(k, 1)]
  | (k', v) :: rest, k =>
      if k' = k then (k, v + 1) :: rest else (k', v) :: dincr rest k

/-! ### `shards.py`: SkinShardsStats.callback -/

/-- `skin_shards = [item for item in player_loot if item["displayCategories"] == "SKIN"]` -/
def skinShards (playerLoot : List LootItem) : List LootItem :=
  playerLoot.filter (fun item => decide (item.displayCategories = "SKIN"))

/-- One iteration of the `for shard in skin_shards` loop:
if `shard["itemStatus"] == "OWNED"` then `owned += shard["count"]`, else
`not_owned += 1` followed by `owned += shard["count"] - 1`, always at key
`shard["value"]`. -/
def updateTier (d : List (Int × TierStat)) (shard : LootItem) : List (Int × TierStat) :=
  if shard.itemStatus = "OWNED" then
    dmodify d shard.value (fun s => { s with owned := s.owned + shard.count })
  else
    dmodify (dmodify d shard.value (fun s => { s with not_owned := s.not_owned + 1 }))
      shard.value (fun s => { s with owned := s.owned + shard.count - 1 })

/-- `shard_categories = {k: {"owned": 0, "not_owned": 0} for k in shard_prices}` -/
def initTiers (shardPrices : List Int) : List (Int × TierStat) :=
  shardPrices.foldl (fun d k => dinsert d k ⟨0, 0⟩) []

/-- The tier statistics computed by `SkinShardsStats.callback`:
filter to `"SKIN"` records, initialise every occurring `value` to
`{"owned": 0, "not_owned": 0}`, then run the accounting loop. -/
def shardCategories (playerLoot : List LootItem) : List (Int × TierStat) :=
  (skinShards playerLoot).foldl updateTier
    (initTiers ((skinShards playerLoot).map (fun shard => shard.value)))

/-! ### `challenges.py`: ChallengeCollectionStats -/

/-- One iteration of `get_skins_by_champion_key`'s outer loop: the inner
loop skips skins with `skin["isBase"]` (i.e. keeps the non-base skins in
catalog order) and the result is assigned to key `champion["key"]`. -/
def skinsStep (d : List (String × List Skin)) (champion : Champion) :
    List (String × List Skin) :=
  dinsert d champion.key (champion.skins.filter (fun skin => !skin.isBase))

/-- `get_skins_by_champion_key`: mapping champion key -> non-base skins. -/
def getSkinsByChampionKey (champJson : List Champion) : List (String × List Skin) :=
  champJson.foldl skinsStep []

/-- One iteration of `get_unowned_shards_by_champion_id`'s loop: count the
item at key `item["parentStoreItemId"]` when `item["itemStatus"] != "OWNED"`
and `item["disenchantRecipeName"] == "SKIN_RENTAL_disenchant"`. -/
def unownedStep (d : List (Int × Nat)) (item : LootItem) : List (Int × Nat) :=
  if item.itemStatus ≠ "OWNED" then
    if item.disenchantRecipeName = "SKIN_RENTAL_disenchant" then
      dincr d item.parentStoreItemId
    else d
  else d

/-- `get_unowned_shards_by_champion_id`: mapping champion id -> number of
redeemable normal champion shards, over the raw loot feed. -/
def getUnownedShardsByChampionId (loot : List LootItem) : List (Int × Nat) :=
  loot.foldl unownedStep []

/-- The Python dict lookup `champ_json[champion_key]` over the embedded
value list: the (first) champion whose `key` field matches. -/
def champLookup (champJson : List Champion) (championKey : String) : Option Champion :=
  champJson.find? (fun c => c.key == championKey)

/-- One iteration of `get_owned_skins_by_champion_id`'s outer loop over a
`(champion_key, skins)` item: for every skin whose id is among the owned
skin ids, increment the counter at `champ_json[champion_key]["id"]`.
(The `none` branch of the lookup embeds Python's `KeyError`; it cannot
fire on keys produced by `get_skins_by_champion_key`.) -/
def ownedStep (champJson : List Champion) (ownedSkinIds : List Int)
    (d : List (Int × Nat)) (p : String × List Skin) : List (Int × Nat) :=
  p.2.foldl (fun d' skin =>
    if skin.id ∈ ownedSkinIds then
      match champLookup champJson p.1 with
      | some c => dincr d' c.id
      | none => d'
    else d') d

/-- `get_owned_skins_by_champion_id`: mapping champion id -> owned skin
count, with `owned_skin_ids = [x["itemId"] for x in ...]`. -/
def getOwnedSkinsByChampionId (skinsByChampionKey : List (String × List Skin))
    (champJson : List Champion) (ownedItems : List OwnedItem) : List (Int × Nat) :=
  skinsByChampionKey.foldl
    (ownedStep champJson (ownedItems.map (fun x => x.itemId))) []

/-- The report rows built by `ChallengeCollectionStats.callback`: one row
`[champion_name, len(skins), unowned_skin_shards, total_sum]` per item of
`skins_by_champion_key`, where missing counters default to `0` and
`total_sum = owned_skin_count + unowned_skin_shards`.  The champion name
and id are read back via `champ_json[champion_key]`. -/
def callbackRows (champJson : List Champion) (loot : List LootItem)
    (ownedItems : List OwnedItem) : List (String × Nat × Nat × Nat) :=
  (getSkinsByChampionKey champJson).filterMap (fun p =>
    (champLookup champJson p.1).map (fun c =>
      (c.name, p.2.length,
       dgetD (getUnownedShardsByChampionId loot) c.id 0,
       dgetD (getOwnedSkinsByChampionId (getSkinsByChampionKey champJson)
           champJson ownedItems) c.id 0 +
         dgetD (getUnownedShardsByChampionId loot) c.id 0)))

/-! ### Claim-side (spec-side) definitions

These follow the words of the claims, to be compared with the embedded
source functions. -/

/-- Per the accounting rule of the spec: an owned record contributes its
`count` to the tier's owned counter, any other record contributes
`count - 1`. -/
def shardContribution (r : LootItem) : Int :=
  if r.itemStatus = "OWNED" then r.count else r.count - 1

/-- Spec-side owned total of a price tier over a shard list. -/
def tierOwnedSpec (shards : List LootItem) (t : Int) : Int :=
  ((shards.filter (fun r => decide (r.value = t))).map shardContribution).sum

/-- Spec-side not-owned total of a price tier: one per non-owned record of
that tier, regardless of its `count`. -/
def tierNotOwnedSpec (shards : List LootItem) (t : Int) : Nat :=
  (shards.filter (fun r => decide (r.value = t ∧ r.itemStatus ≠ "OWNED"))).length

/-- Sum of the `count` fields of the records of a price tier. -/
def tierCountSum (shards : List LootItem) (t : Int) : Int :=
  ((shards.filter (fun r => decide (r.value = t))).map (fun r => r.count)).sum

/-- Spec-side unowned-shard count of a champion id: one per loot record
with status not `"OWNED"`, recipe `"SKIN_RENTAL_disenchant"` and that
parent id. -/
def unownedSpec (loot : List LootItem) (id : Int) : Nat :=
  (loot.filter (fun r => decide (r.itemStatus ≠ "OWNED" ∧
    r.disenchantRecipeName = "SKIN_RENTAL_disenchant" ∧
    r.parentStoreItemId = id))).length

/-! ### Lemmas about the dict operations -/

theorem dget?_dinsert {K V : Type} [DecidableEq K] (d : List (K × V)) (k q : K) (v : V) :
    dget? (dinsert d k v) q = if k = q then some v else dget? d q := by
  induction d with
  | nil =>
    simp only [dinsert, dget?]
  | cons p rest ih =>
    obtain ⟨k', v'⟩ := p
    simp only [dinsert]
    by_cases h : k' = k
    · subst h
      simp only [if_pos rfl, dget?]
      by_cases hq : k' = q <;> simp [hq]
    · simp only [if_neg h, dget?]
      by_cases hq : k' = q
      · subst hq
        have hk : ¬ k = k' := fun hh => h hh.symm
        simp [hk]
      · simp [hq, ih]

theorem dget?_dmodify {K V : Type} [DecidableEq K] (d : List (K × V)) (k q : K)
    (f : V → V) :
    dget? (dmodify d k f) q = if k = q then (dget? d k).map f else dget? d q := by
  induction d with
  | nil => simp [dmodify, dget?]
  | cons p rest ih =>
    obtain ⟨k', v'⟩ := p
    simp only [dmodify]
    by_cases h : k' = k
    · subst h
      simp only [if_pos rfl, dget?]
      by_cases hq : k' = q <;> simp [hq]
    · simp only [if_neg h, dget?]
      by_cases hq : k' = q
      · subst hq
        have hk : ¬ k = k' := fun hh => h hh.symm
        simp [hk]
      · simp [hq, ih, h]

theorem dget?_dincr {K : Type} [DecidableEq K] (d : List (K × Nat)) (k q : K) :
    dget? (dincr d k) q = if k = q then some (dgetD d k 0 + 1) else dget? d q := by
  induction d with
  | nil => simp [dincr, dget?, dgetD]
  | cons p rest ih =>
    obtain ⟨k', v'⟩ := p
    simp only [dincr]
    by_cases h : k' = k
    · subst h
      simp only [if_pos rfl, dget?, dgetD]
      by_cases hq : k' = q <;> simp [hq]
    · simp only [if_neg h, dget?]
      by_cases hq : k' = q
      · subst hq
        have hk : ¬ k = k' := fun hh => h hh.symm
        simp [hk]
      · simp only [if_neg hq, ih, dgetD, dget?, if_neg h]

theorem dgetD_dincr {K : Type} [DecidableEq K] (d : List (K × Nat)) (k q : K) :
    dgetD (dincr d k) q 0 = dgetD d q 0 + if k = q then 1 else 0 := by
  by_cases h : k = q
  · subst h; simp [dgetD, dget?_dincr]
  · simp [dgetD, dget?_dincr, h]

/-! ### Characterization of the tier statistics (`shards.py`) -/

theorem foldl_initTiers_lookup (prices : List Int) (d : List (Int × TierStat)) (t : Int) :
    dget? (prices.foldl (fun d' k => dinsert d' k ⟨0, 0⟩) d) t =
      if t ∈ prices then some ⟨0, 0⟩ else dget? d t := by
  induction prices generalizing d with
  | nil => simp
  | cons k ps ih =>
    simp only [List.foldl_cons, ih, dget?_dinsert, List.mem_cons]
    by_cases h1 : t ∈ ps
    · simp [h1]
    · by_cases h2 : k = t
      · simp [h1, h2]
      · have h3 : ¬ t = k := fun hh => h2 hh.symm
        simp [h1, h2, h3]

theorem dget?_updateTier (d : List (Int × TierStat)) (r : LootItem) (t : Int) :
    dget? (updateTier d r) t =
      if r.value = t then
        (dget? d t).map (fun s =>
          ⟨s.owned + shardContribution r,
           s.not_owned + if r.itemStatus = "OWNED" then 0 else 1⟩)
      else dget? d t := by
  unfold updateTier shardContribution
  by_cases hs : r.itemStatus = "OWNED"
  · simp only [if_pos hs, dget?_dmodify]
    by_cases hv : r.value = t
    · subst hv
      simp only [if_pos rfl]
      cases dget? d r.value with
      | none => rfl
      | some s => cases s; simp
    · simp [hv]
  · simp only [if_neg hs, dget?_dmodify]
    by_cases hv : r.value = t
    · subst hv
      simp only [if_pos rfl]
      cases dget? d r.value with
      | none => rfl
      | some s => cases s; simp; ring
    · simp [hv]

theorem tierOwnedSpec_cons_of_eq {r : LootItem} {t : Int} (hv : r.value = t)
    (rs : List LootItem) :
    tierOwnedSpec (r :: rs) t = shardContribution r + tierOwnedSpec rs t := by
  simp [tierOwnedSpec, List.filter_cons, hv]

theorem tierOwnedSpec_cons_of_ne {r : LootItem} {t : Int} (hv : ¬ r.value = t)
    (rs : List LootItem) :
    tierOwnedSpec (r :: rs) t = tierOwnedSpec rs t := by
  simp [tierOwnedSpec, List.filter_cons, hv]

theorem tierNotOwnedSpec_cons_of_eq {r : LootItem} {t : Int} (hv : r.value = t)
    (rs : List LootItem) :
    (tierNotOwnedSpec (r :: rs) t : Int) =
      (if r.itemStatus = "OWNED" then 0 else 1) + (tierNotOwnedSpec rs t : Int) := by
  by_cases hs : r.itemStatus = "OWNED"
  · simp [tierNotOwnedSpec, List.filter_cons, hv, hs]
  · simp [tierNotOwnedSpec, List.filter_cons, hv, hs]
    omega

theorem tierNotOwnedSpec_cons_of_ne {r : LootItem} {t : Int} (hv : ¬ r.value = t)
    (rs : List LootItem) :
    tierNotOwnedSpec (r :: rs) t = tierNotOwnedSpec rs t := by
  simp [tierNotOwnedSpec, List.filter_cons, hv]

theorem foldl_updateTier_some (rs : List LootItem) (d : List (Int × TierStat))
    (t : Int) (s : TierStat) (h : dget? d t = some s) :
    dget? (rs.foldl updateTier d) t =
      some ⟨s.owned + tierOwnedSpec rs t,
            s.not_owned + (tierNotOwnedSpec rs t : Int)⟩ := by
  induction rs generalizing d s with
  | nil =>
    simp [tierOwnedSpec, tierNotOwnedSpec, h]
  | cons r rs ih =>
    simp only [List.foldl_cons]
    by_cases hv : r.value = t
    · have h' : dget? (updateTier d r) t =
        some ⟨s.owned + shardContribution r,
              s.not_owned + if r.itemStatus = "OWNED" then 0 else 1⟩ := by
        rw [dget?_updateTier, if_pos hv, h]; rfl
      rw [ih _ _ h', tierOwnedSpec_cons_of_eq hv, tierNotOwnedSpec_cons_of_eq hv]
      congr 1
      cases s
      simp only [TierStat.mk.injEq]
      constructor <;> ring
    · have h' : dget? (updateTier d r) t = some s := by
        rw [dget?_updateTier, if_neg hv]; exact h
      rw [ih _ _ h', tierOwnedSpec_cons_of_ne hv, tierNotOwnedSpec_cons_of_ne hv]

theorem foldl_updateTier_none (rs : List LootItem) (d : List (Int × TierStat))
    (t : Int) (h : dget? d t = none) :
    dget? (rs.foldl updateTier d) t = none := by
  induction rs generalizing d with
  | nil => exact h
  | cons r rs ih =>
    apply ih
    rw [dget?_updateTier]
    by_cases hv : r.value = t <;> simp [hv, h]

theorem initTiers_lookup (prices : List Int) (t : Int) :
    dget? (initTiers prices) t = if t ∈ prices then some ⟨0, 0⟩ else none := by
  unfold initTiers
  rw [foldl_initTiers_lookup]
  simp [dget?]

theorem shardCategories_lookup (playerLoot : List LootItem) (t : Int) :
    dget? (shardCategories playerLoot) t =
      if t ∈ (skinShards playerLoot).map (fun r => r.value) then
        some ⟨tierOwnedSpec (skinShards playerLoot) t,
              (tierNotOwnedSpec (skinShards playerLoot) t : Int)⟩
      else none := by
  show dget? ((skinShards playerLoot).foldl updateTier
      (initTiers ((skinShards playerLoot).map (fun shard => shard.value)))) t = _
  by_cases h : t ∈ (skinShards playerLoot).map (fun r => r.value)
  · have h0 : dget? (initTiers ((skinShards playerLoot).map (fun shard => shard.value)))
        t = some ⟨0, 0⟩ := by
      rw [initTiers_lookup]
      simp [h]
    rw [foldl_updateTier_some _ _ _ _ h0]
    simp [h]
  · have h0 : dget? (initTiers ((skinShards playerLoot).map (fun shard => shard.value)))
        t = none := by
      rw [initTiers_lookup]
      simp [h]
    rw [foldl_updateTier_none _ _ _ h0]
    simp [h]

theorem tierSpec_add_eq_sum (shards : List LootItem) (t : Int) :
    tierOwnedSpec shards t + (tierNotOwnedSpec shards t : Int) =
      tierCountSum shards t := by
  induction shards with
  | nil => simp [tierOwnedSpec, tierNotOwnedSpec, tierCountSum]
  | cons r rs ih =>
    by_cases hv : r.value = t
    · rw [tierOwnedSpec_cons_of_eq hv, tierNotOwnedSpec_cons_of_eq hv]
      have hc : tierCountSum (r :: rs) t = r.count + tierCountSum rs t := by
        simp [tierCountSum, List.filter_cons, hv]
      rw [hc, ← ih]
      unfold shardContribution
      by_cases hs : r.itemStatus = "OWNED" <;> simp only [hs, if_pos, if_neg,
        if_true, if_false, reduceIte] <;> ring
    · rw [tierOwnedSpec_cons_of_ne hv, tierNotOwnedSpec_cons_of_ne hv]
      have hc : tierCountSum (r :: rs) t = tierCountSum rs t := by
        simp [tierCountSum, List.filter_cons, hv]
      rw [hc, ih]

/-! ### Characterization of the unowned-shard map (`challenges.py`) -/

theorem unownedSpec_cons (r : LootItem) (rs : List LootItem) (id : Int) :
    unownedSpec (r :: rs) id =
      (if r.itemStatus ≠ "OWNED" ∧ r.disenchantRecipeName = "SKIN_RENTAL_disenchant" ∧
          r.parentStoreItemId = id then 1 else 0) + unownedSpec rs id := by
  by_cases h : r.itemStatus ≠ "OWNED" ∧ r.disenchantRecipeName = "SKIN_RENTAL_disenchant" ∧
      r.parentStoreItemId = id
  · simp [unownedSpec, List.filter_cons, h]
    omega
  · simp [unownedSpec, List.filter_cons, h]

theorem foldl_unownedStep (rs : List LootItem) (d : List (Int × Nat)) (id : Int) :
    dgetD (rs.foldl unownedStep d) id 0 = dgetD d id 0 + unownedSpec rs id := by
  induction rs generalizing d with
  | nil => simp [unownedSpec]
  | cons r rs ih =>
    simp only [List.foldl_cons, ih, unownedSpec_cons]
    unfold unownedStep
    by_cases h1 : r.itemStatus = "OWNED"
    · simp [h1]
    · by_cases h2 : r.disenchantRecipeName = "SKIN_RENTAL_disenchant"
      · by_cases h3 : r.parentStoreItemId = id
        · simp only [h1, h2, h3, ne_eq, not_false_eq_true, if_true, and_self,
            if_pos, dgetD_dincr, reduceIte, and_true, true_and, not_true_eq_false]
          omega
        · simp only [h1, h2, h3, ne_eq, not_false_eq_true, if_true, dgetD_dincr,
            and_false, if_false, reduceIte]
          omega
      · simp [h1, h2]

theorem getUnowned_eq_spec (loot : List LootItem) (id : Int) :
    dgetD (getUnownedShardsByChampionId loot) id 0 = unownedSpec loot id := by
  show dgetD (loot.foldl unownedStep []) id 0 = _
  rw [foldl_unownedStep]
  simp [dgetD, dget?]

/-! ### Demonstration inputs used by witnesses and counterexamples -/

/-- A small loot feed: one stacked owned 520 shard and one convertible
520 shard. -/
def demoLoot : List LootItem :=
  [⟨"SKIN", "OWNED", "SKIN_RENTAL_disenchant", 266, 520, 3⟩,
   ⟨"SKIN", "FREE", "SKIN_RENTAL_disenchant", 266, 520, 1⟩]

/-- The spec's catalog scenario: Aatrox with a base skin and one
non-base skin. -/
def demoCatalog : List Champion :=
  [⟨"Aatrox", "Aatrox", 266, [⟨266000, true⟩, ⟨266001, false⟩]⟩]

/-- A convertible loot record whose display category is not `"SKIN"`. -/
def demoNonSkinShard : LootItem :=
  ⟨"CHAMPION", "FREE", "SKIN_RENTAL_disenchant", 42, 520, 5⟩

/-- A convertible `"SKIN"` record with `count == 0` (the zero-count
anomaly). -/
def demoZeroCountShard : LootItem :=
  ⟨"SKIN", "FREE", "SKIN_RENTAL_disenchant", 266, 520, 0⟩

/-! ### Claims -/

/-- C1: for every loot feed, restricted to the records with display
category `"SKIN"`, the per-price-tier structure maps a tier `t` that
occurs among those records to exactly the pair whose `owned` component
sums `count` over the owned records of the tier and `count - 1` over the
other records, and whose `not_owned` component counts one per non-owned
record of the tier; tiers that do not occur are absent. -/
theorem C1_tier_accounting_rule (playerLoot : List LootItem) (t : Int) :
    dget? (shardCategories playerLoot) t =
      if t ∈ (skinShards playerLoot).map (fun r => r.value) then
        some ⟨tierOwnedSpec (skinShards playerLoot) t,
              (tierNotOwnedSpec (skinShards playerLoot) t : Int)⟩
      else none :=
  shardCategories_lookup playerLoot t

/-- C2: for every loot feed and every parent entity id, the
unowned-by-parent-id mapping counts exactly one unit per loot record
whose status is not `"OWNED"`, whose recipe is `"SKIN_RENTAL_disenchant"`
and whose `parentStoreItemId` is that id, independently of the record's
`count`; records with any other recipe contribute nothing. -/
theorem C2_unowned_by_parent_id (loot : List LootItem) (id : Int) :
    dgetD (getUnownedShardsByChampionId loot) id 0 = unownedSpec loot id :=
  getUnowned_eq_spec loot id

/-- C3: for every loot feed whose `"SKIN"` records all have `count ≥ 1`
and every price tier present in the computed statistics, the tier's
`owned + not_owned` equals the sum of the `count` fields of the `"SKIN"`
records of that tier. -/
theorem C3_tier_accounting_identity (playerLoot : List LootItem) (t : Int)
    (s : TierStat) (_hcounts : ∀ r ∈ skinShards playerLoot, 1 ≤ r.count)
    (hs : dget? (shardCategories playerLoot) t = some s) :
    s.owned + s.not_owned = tierCountSum (skinShards playerLoot) t := by
  rw [shardCategories_lookup] at hs
  by_cases h : t ∈ (skinShards playerLoot).map (fun r => r.value)
  · rw [if_pos h, Option.some.injEq] at hs
    subst hs
    exact tierSpec_add_eq_sum (skinShards playerLoot) t
  · rw [if_neg h] at hs
    exact absurd hs (by simp)

/-- Witness for C3 on the demonstration loot feed at tier 520. -/
theorem C3_tier_accounting_identity_witness :
    TierStat.owned ⟨3, 1⟩ + TierStat.not_owned ⟨3, 1⟩ =
      tierCountSum (skinShards demoLoot) 520 :=
  C3_tier_accounting_identity demoLoot 520 ⟨3, 1⟩ (by decide) (by decide)

/-! Append lemmas for the spec-side tier and unowned counters. -/

theorem tierOwnedSpec_append (xs ys : List LootItem) (t : Int) :
    tierOwnedSpec (xs ++ ys) t = tierOwnedSpec xs t + tierOwnedSpec ys t := by
  simp [tierOwnedSpec, List.filter_append]

theorem tierNotOwnedSpec_append (xs ys : List LootItem) (t : Int) :
    tierNotOwnedSpec (xs ++ ys) t = tierNotOwnedSpec xs t + tierNotOwnedSpec ys t := by
  simp [tierNotOwnedSpec, List.filter_append]

theorem unownedSpec_append (xs ys : List LootItem) (id : Int) :
    unownedSpec (xs ++ ys) id = unownedSpec xs id + unownedSpec ys id := by
  simp [unownedSpec, List.filter_append]

/-- C5 counterexample: on the loot feed consisting of one convertible
`"SKIN"` record with `count = 0`, the tier statistics are the ordinary
value `{520: {owned: -1, not_owned: 1}}`: the negative contribution is
silently folded into the owned counter, and the computation produces no
warning or error value of any kind. -/
theorem C5_counterexample :
    shardCategories [demoZeroCountShard] = [(520, ⟨-1, 1⟩)] ∧
      demoZeroCountShard.count = 0 ∧ demoZeroCountShard.itemStatus ≠ "OWNED" ∧
      demoZeroCountShard.displayCategories = "SKIN" := by
  refine ⟨by decide, by decide, by decide, by decide⟩

/-- C5 amended: a convertible `"SKIN"` record with `count = 0` silently
contributes `-1` to its tier's owned counter and `+1` to its not-owned
counter; no warning or explicit error value is attached, the result stays
a plain tier map. -/
theorem C5_zero_count_silent_fold (loot : List LootItem) (r : LootItem)
    (h1 : r.displayCategories = "SKIN") (h2 : r.itemStatus ≠ "OWNED")
    (h3 : r.count = 0) :
    dget? (shardCategories (loot ++ [r])) r.value =
      some ⟨tierOwnedSpec (skinShards loot) r.value - 1,
            (tierNotOwnedSpec (skinShards loot) r.value : Int) + 1⟩ := by
  have hs : skinShards (loot ++ [r]) = skinShards loot ++ [r] := by
    simp [skinShards, List.filter_append, h1]
  rw [shardCategories_lookup, hs]
  have hmem : r.value ∈ (skinShards loot ++ [r]).map (fun r' => r'.value) := by
    simp
  rw [if_pos hmem, tierOwnedSpec_append, tierNotOwnedSpec_append]
  have ho : tierOwnedSpec [r] r.value = -1 := by
    simp [tierOwnedSpec, shardContribution, List.filter_cons, h2, h3]
  have hn : tierNotOwnedSpec [r] r.value = 1 := by
    simp [tierNotOwnedSpec, List.filter_cons, h2]
  rw [ho, hn]
  push_cast
  ring_nf

/-- Witness for the amended C5 at the concrete zero-count record. -/
theorem C5_zero_count_silent_fold_witness :
    dget? (shardCategories ([] ++ [demoZeroCountShard])) demoZeroCountShard.value =
      some ⟨tierOwnedSpec (skinShards []) demoZeroCountShard.value - 1,
            (tierNotOwnedSpec (skinShards []) demoZeroCountShard.value : Int) + 1⟩ :=
  C5_zero_count_silent_fold [] demoZeroCountShard (by decide) (by decide) (by decide)

/-- C6 counterexample: a loot record whose display category is not
`"SKIN"` but whose status is not `"OWNED"` and whose recipe is
`"SKIN_RENTAL_disenchant"` does contribute to the unowned-by-parent-id
mapping: `get_unowned_shards_by_champion_id` applies no display-category
filter. -/
theorem C6_counterexample :
    demoNonSkinShard.displayCategories ≠ "SKIN" ∧
      dgetD (getUnownedShardsByChampionId [demoNonSkinShard]) 42 0 = 1 := by
  refine ⟨by decide, by decide⟩

/-- C6 amended: a record whose display category is not `"SKIN"`
contributes nothing to the per-tier owned/not-owned statistics, but the
unowned-by-parent-id mapping ignores the display category: such a record
still adds one unit for its parent id whenever its status is not
`"OWNED"` and its recipe is `"SKIN_RENTAL_disenchant"`. -/
theorem C6_scope_filter (loot : List LootItem) (r : LootItem)
    (h1 : r.displayCategories ≠ "SKIN") :
    shardCategories (loot ++ [r]) = shardCategories loot ∧
    (r.itemStatus ≠ "OWNED" → r.disenchantRecipeName = "SKIN_RENTAL_disenchant" →
      dgetD (getUnownedShardsByChampionId (loot ++ [r])) r.parentStoreItemId 0 =
        dgetD (getUnownedShardsByChampionId loot) r.parentStoreItemId 0 + 1) := by
  constructor
  · have hs : skinShards (loot ++ [r]) = skinShards loot := by
      simp [skinShards, List.filter_append, h1]
    unfold shardCategories
    rw [hs]
  · intro h2 h3
    rw [getUnowned_eq_spec, getUnowned_eq_spec, unownedSpec_append]
    have h4 : unownedSpec [r] r.parentStoreItemId = 1 := by
      simp [unownedSpec, List.filter_cons, h2, h3]
    rw [h4]

/-! ### Characterization of the catalog normalizer -/

theorem foldl_skinsStep_preserve (cs : List Champion) (d : List (String × List Skin))
    (k : String) (h : ∀ c ∈ cs, c.key ≠ k) :
    dget? (cs.foldl skinsStep d) k = dget? d k := by
  induction cs generalizing d with
  | nil => rfl
  | cons c0 cs ih =>
    simp only [List.foldl_cons]
    rw [ih _ (fun c' hc' => h c' (List.mem_cons_of_mem _ hc'))]
    unfold skinsStep
    rw [dget?_dinsert, if_neg (h c0 (List.mem_cons_self _ _))]

theorem foldl_skinsStep_lookup (cs : List Champion) (d : List (String × List Skin))
    (h : (cs.map (fun c => c.key)).Nodup) (c : Champion) (hc : c ∈ cs) :
    dget? (cs.foldl skinsStep d) c.key =
      some (c.skins.filter (fun s => !s.isBase)) := by
  induction cs generalizing d with
  | nil => cases hc
  | cons c0 cs ih =>
    simp only [List.map_cons, List.nodup_cons] at h
    simp only [List.foldl_cons]
    rcases List.mem_cons.mp hc with hceq | hcmem
    · subst hceq
      have hne : ∀ c' ∈ cs, c'.key ≠ c.key := by
        intro c' hc' he
        exact h.1 (he ▸ List.mem_map_of_mem (fun x => x.key) hc')
      rw [foldl_skinsStep_preserve cs _ _ hne]
      unfold skinsStep
      rw [dget?_dinsert, if_pos rfl]
    · exact ih _ h.2 hcmem

theorem foldl_skinsStep_values (cs : List Champion) (d : List (String × List Skin))
    (hd : ∀ k l, dget? d k = some l → ∀ s ∈ l, s.isBase = false)
    (k : String) (l : List Skin) (h : dget? (cs.foldl skinsStep d) k = some l) :
    ∀ s ∈ l, s.isBase = false := by
  induction cs generalizing d with
  | nil => exact hd k l h
  | cons c0 cs ih =>
    refine ih _ ?_ h
    intro k' l' hl' s hs
    unfold skinsStep at hl'
    rw [dget?_dinsert] at hl'
    by_cases hk : c0.key = k'
    · rw [if_pos hk, Option.some.injEq] at hl'
      subst hl'
      have hfs := List.of_mem_filter hs
      simpa using hfs
    · rw [if_neg hk] at hl'
      exact hd k' l' hl' s hs

/-- C7: the catalog normalizer maps each champion key to exactly its
non-base skins in catalog order (given the catalog's keys are distinct,
as they are in a JSON object), and no list it produces ever contains a
base skin. -/
theorem C7_catalog_normalization (champJson : List Champion) :
    ((champJson.map (fun c => c.key)).Nodup →
      ∀ c ∈ champJson, dget? (getSkinsByChampionKey champJson) c.key =
        some (c.skins.filter (fun s => !s.isBase))) ∧
    (∀ k l, dget? (getSkinsByChampionKey champJson) k = some l →
      ∀ s ∈ l, s.isBase = false) := by
  constructor
  · intro h c hc
    exact foldl_skinsStep_lookup champJson [] h c hc
  · intro k l hl
    refine foldl_skinsStep_values champJson [] ?_ k l hl
    intro k' l' h'
    simp [dget?] at h'

/-- Witness for C7 on the demonstration catalog. -/
theorem C7_catalog_normalization_witness :
    dget? (getSkinsByChampionKey demoCatalog) "Aatrox" = some [⟨266001, false⟩] := by
  have h := (C7_catalog_normalization demoCatalog).1 (by decide)
    ⟨"Aatrox", "Aatrox", 266, [⟨266000, true⟩, ⟨266001, false⟩]⟩ (by decide)
  exact h

/-- Witness for the amended C6 at the concrete non-`"SKIN"` record. -/
theorem C6_scope_filter_witness :
    shardCategories ([] ++ [demoNonSkinShard]) = shardCategories [] ∧
    dgetD (getUnownedShardsByChampionId ([] ++ [demoNonSkinShard]))
        demoNonSkinShard.parentStoreItemId 0 =
      dgetD (getUnownedShardsByChampionId []) demoNonSkinShard.parentStoreItemId 0 + 1 :=
  ⟨(C6_scope_filter [] demoNonSkinShard (by decide)).1,
   (C6_scope_filter [] demoNonSkinShard (by decide)).2 (by decide) (by decide)⟩

/-! ### Characterization of the ownership joiner -/

theorem dinsert_eq_append {K V : Type} [DecidableEq K] (d : List (K × V)) (k : K)
    (v : V) (h : ∀ p ∈ d, p.1 ≠ k) : dinsert d k v = d ++ [(k, v)] := by
  induction d with
  | nil => rfl
  | cons p rest ih =>
    obtain ⟨k', v'⟩ := p
    have hk : k' ≠ k := h (k', v') (List.mem_cons_self _ _)
    simp only [dinsert, if_neg hk, List.cons_append]
    rw [ih (fun p hp => h p (List.mem_cons_of_mem _ hp))]

theorem foldl_skinsStep_eq_map (cs : List Champion) (d : List (String × List Skin))
    (hd : ∀ c ∈ cs, ∀ p ∈ d, p.1 ≠ c.key) (h : (cs.map (fun c => c.key)).Nodup) :
    cs.foldl skinsStep d =
      d ++ cs.map (fun c => (c.key, c.skins.filter (fun s => !s.isBase))) := by
  induction cs generalizing d with
  | nil => simp
  | cons c0 cs ih =>
    simp only [List.map_cons, List.nodup_cons] at h
    simp only [List.foldl_cons, List.map_cons]
    have hstep : skinsStep d c0 =
        d ++ [(c0.key, c0.skins.filter (fun s => !s.isBase))] := by
      unfold skinsStep
      exact dinsert_eq_append _ _ _ (fun p hp => hd c0 (List.mem_cons_self _ _) p hp)
    have hd' : ∀ c ∈ cs,
        ∀ p ∈ d ++ [(c0.key, c0.skins.filter (fun s => !s.isBase))], p.1 ≠ c.key := by
      intro c hc p hp
      rcases List.mem_append.mp hp with hp1 | hp2
      · exact hd c (List.mem_cons_of_mem _ hc) p hp1
      · have hp0 : p.1 = c0.key := by
          rw [List.mem_singleton.mp hp2]
        intro he
        apply h.1
        rw [← hp0, he]
        exact List.mem_map_of_mem (fun x => x.key) hc
    rw [hstep, ih _ hd' h.2]
    simp

theorem getSkinsByChampionKey_eq (champJson : List Champion)
    (h : (champJson.map (fun c => c.key)).Nodup) :
    getSkinsByChampionKey champJson =
      champJson.map (fun c => (c.key, c.skins.filter (fun s => !s.isBase))) := by
  show champJson.foldl skinsStep [] = _
  rw [foldl_skinsStep_eq_map champJson [] (by intro c _ p hp; cases hp) h]
  simp

theorem champLookup_self (cs : List Champion)
    (h : (cs.map (fun c => c.key)).Nodup) (c : Champion) (hc : c ∈ cs) :
    champLookup cs c.key = some c := by
  induction cs with
  | nil => cases hc
  | cons c0 cs ih =>
    simp only [List.map_cons, List.nodup_cons] at h
    rcases List.mem_cons.mp hc with hceq | hcm
    · subst hceq
      unfold champLookup
      rw [List.find?_cons_of_pos _ (by simp)]
    · unfold champLookup
      have hne : (c0.key == c.key) = false := by
        rw [beq_eq_false_iff_ne]
        intro he
        exact h.1 (he ▸ List.mem_map_of_mem (fun x => x.key) hcm)
      simp only [List.find?, hne]
      exact ih h.2 hcm

/-- The number of a champion's non-base skins whose ids are among the
owned skin ids: what the claims call the owned count of that champion. -/
def ownedCountSpec (c : Champion) (ids : List Int) : Nat :=
  ((c.skins.filter (fun s => !s.isBase)).filter (fun s => decide (s.id ∈ ids))).length

theorem dgetD_incr_fold (skins : List Skin) (ids : List Int) (d : List (Int × Nat))
    (k q : Int) :
    dgetD (skins.foldl (fun d' skin => if skin.id ∈ ids then dincr d' k else d') d) q 0 =
      dgetD d q 0 +
        if k = q then (skins.filter (fun s => decide (s.id ∈ ids))).length else 0 := by
  induction skins generalizing d with
  | nil => simp
  | cons s0 skins ih =>
    simp only [List.foldl_cons, ih, List.filter_cons]
    by_cases hm : s0.id ∈ ids
    · simp only [hm, decide_True, if_true, dgetD_dincr, List.length_cons]
      by_cases hk : k = q
      · simp only [hk, if_pos, reduceIte]
        omega
      · simp [hk]
    · simp [hm]

theorem foldl_ownedStep_lookup (cs champJson : List Champion) (ids : List Int)
    (d : List (Int × Nat)) (q : Int)
    (hlk : ∀ c ∈ cs, champLookup champJson c.key = some c) :
    dgetD ((cs.map (fun c => (c.key, c.skins.filter (fun s => !s.isBase)))).foldl
        (ownedStep champJson ids) d) q 0 =
      dgetD d q 0 +
        ((cs.filter (fun c => decide (c.id = q))).map
          (fun c => ownedCountSpec c ids)).sum := by
  induction cs generalizing d with
  | nil => simp
  | cons c0 cs ih =>
    simp only [List.map_cons, List.foldl_cons]
    have hstep : ownedStep champJson ids d
        (c0.key, c0.skins.filter (fun s => !s.isBase)) =
        (c0.skins.filter (fun s => !s.isBase)).foldl
          (fun d' skin => if skin.id ∈ ids then dincr d' c0.id else d') d := by
      unfold ownedStep
      simp only [hlk c0 (List.mem_cons_self _ _)]
    rw [hstep, ih _ (fun c hc => hlk c (List.mem_cons_of_mem _ hc)),
      dgetD_incr_fold]
    simp only [List.filter_cons]
    by_cases hq : c0.id = q
    · simp only [hq, decide_True, if_pos, List.map_cons, List.sum_cons, reduceIte,
        ownedCountSpec]
      omega
    · simp [hq]

theorem getOwned_lookup (champJson : List Champion) (ownedItems : List OwnedItem)
    (hkeys : (champJson.map (fun c => c.key)).Nodup) (q : Int) :
    dgetD (getOwnedSkinsByChampionId (getSkinsByChampionKey champJson)
        champJson ownedItems) q 0 =
      ((champJson.filter (fun c => decide (c.id = q))).map
        (fun c => ownedCountSpec c (ownedItems.map (fun x => x.itemId)))).sum := by
  rw [getSkinsByChampionKey_eq _ hkeys]
  show dgetD ((champJson.map (fun c => (c.key, c.skins.filter (fun s => !s.isBase)))).foldl
      (ownedStep champJson (ownedItems.map (fun x => x.itemId))) []) q 0 = _
  rw [foldl_ownedStep_lookup _ _ _ _ _ (fun c hc => champLookup_self _ hkeys c hc)]
  simp [dgetD, dget?]

theorem filter_id_eq_singleton (cs : List Champion)
    (h : (cs.map (fun c => c.id)).Nodup) (c : Champion) (hc : c ∈ cs) :
    cs.filter (fun c' => decide (c'.id = c.id)) = [c] := by
  induction cs with
  | nil => cases hc
  | cons c0 cs ih =>
    simp only [List.map_cons, List.nodup_cons] at h
    rcases List.mem_cons.mp hc with hceq | hcm
    · subst hceq
      simp only [List.filter_cons, decide_True, if_pos, reduceIte]
      have hrest : cs.filter (fun c' => decide (c'.id = c.id)) = [] := by
        rw [List.filter_eq_nil_iff]
        intro c' hc'
        simp only [decide_eq_true_eq]
        intro he
        exact h.1 (he ▸ List.mem_map_of_mem (fun x => x.id) hc')
      rw [hrest]
    · have hne : c0.id ≠ c.id := by
        intro he
        exact h.1 (he ▸ List.mem_map_of_mem (fun x => x.id) hcm)
      simp only [List.filter_cons, hne, decide_False, if_neg, reduceIte]
      exact ih h.2 hcm

/-- C8: for every catalog with distinct keys and distinct numeric ids and
every owned-items list, a champion's owned count never exceeds the number
of its non-base skins. -/
theorem C8_owned_count_bound (champJson : List Champion) (ownedItems : List OwnedItem)
    (hkeys : (champJson.map (fun c => c.key)).Nodup)
    (hids : (champJson.map (fun c => c.id)).Nodup)
    (c : Champion) (hc : c ∈ champJson) :
    dgetD (getOwnedSkinsByChampionId (getSkinsByChampionKey champJson)
        champJson ownedItems) c.id 0 ≤
      (c.skins.filter (fun s => !s.isBase)).length := by
  rw [getOwned_lookup _ _ hkeys, filter_id_eq_singleton _ hids c hc]
  simp only [List.map_cons, List.map_nil, List.sum_cons, List.sum_nil, add_zero,
    ownedCountSpec]
  exact List.length_filter_le _ _

/-- Witness for C8 on the demonstration catalog. -/
theorem C8_owned_count_bound_witness :
    dgetD (getOwnedSkinsByChampionId (getSkinsByChampionKey demoCatalog)
        demoCatalog [⟨266001⟩]) (266 : Int) 0 ≤
      ((⟨"Aatrox", "Aatrox", 266, [⟨266000, true⟩, ⟨266001, false⟩]⟩ :
        Champion).skins.filter (fun s => !s.isBase)).length :=
  C8_owned_count_bound demoCatalog [⟨266001⟩] (by decide) (by decide)
    ⟨"Aatrox", "Aatrox", 266, [⟨266000, true⟩, ⟨266001, false⟩]⟩ (by decide)

/-! ### The aggregation reporter -/

theorem filterMap_rows (cs champJson : List Champion)
    (row : Champion → List Skin → String × Nat × Nat × Nat)
    (hlk : ∀ c ∈ cs, champLookup champJson c.key = some c) :
    (cs.map (fun c => (c.key, c.skins.filter (fun s => !s.isBase)))).filterMap
        (fun p => (champLookup champJson p.1).map (fun c' => row c' p.2)) =
      cs.map (fun c => row c (c.skins.filter (fun s => !s.isBase))) := by
  induction cs with
  | nil => rfl
  | cons c0 cs ih =>
    simp only [List.map_cons, List.filterMap_cons]
    rw [hlk c0 (List.mem_cons_self _ _)]
    simp only [Option.map_some']
    rw [ih (fun c hc => hlk c (List.mem_cons_of_mem _ hc))]

/-- C4: for every catalog with distinct keys, loot feed and owned-items
list, the report has exactly one row per catalog champion, in catalog
order, and each row is the champion's name, its non-base skin count, its
unowned-shard count (0 when absent from that mapping) and owned count
(0 when absent) plus unowned count. -/
theorem C4_report_rows (champJson : List Champion) (loot : List LootItem)
    (ownedItems : List OwnedItem)
    (hkeys : (champJson.map (fun c => c.key)).Nodup) :
    callbackRows champJson loot ownedItems =
      champJson.map (fun c =>
        (c.name, (c.skins.filter (fun s => !s.isBase)).length,
         dgetD (getUnownedShardsByChampionId loot) c.id 0,
         dgetD (getOwnedSkinsByChampionId (getSkinsByChampionKey champJson)
             champJson ownedItems) c.id 0 +
           dgetD (getUnownedShardsByChampionId loot) c.id 0)) := by
  unfold callbackRows
  rw [getSkinsByChampionKey_eq _ hkeys]
  exact filterMap_rows champJson champJson
    (fun c' skins =>
      (c'.name, skins.length,
       dgetD (getUnownedShardsByChampionId loot) c'.id 0,
       dgetD (getOwnedSkinsByChampionId
           (champJson.map (fun c => (c.key, c.skins.filter (fun s => !s.isBase))))
           champJson ownedItems) c'.id 0 +
         dgetD (getUnownedShardsByChampionId loot) c'.id 0))
    (fun c hc => champLookup_self _ hkeys c hc)

/-- Witness for C4: the spec's scenario (Aatrox, one base and one
non-base skin, the non-base skin owned, empty loot) produces the single
row `("Aatrox", 1, 0, 1)`. -/
theorem C4_report_rows_witness :
    callbackRows demoCatalog [] [⟨266001⟩] =
      demoCatalog.map (fun c =>
        (c.name, (c.skins.filter (fun s => !s.isBase)).length,
         dgetD (getUnownedShardsByChampionId []) c.id 0,
         dgetD (getOwnedSkinsByChampionId (getSkinsByChampionKey demoCatalog)
             demoCatalog [⟨266001⟩]) c.id 0 +
           dgetD (getUnownedShardsByChampionId []) c.id 0)) :=
  C4_report_rows demoCatalog [] [⟨266001⟩] (by decide)

/-- C9: the reconciliation is a function of the three input snapshots
only: identical catalog, loot and owned-items snapshots yield identical
report rows and identical tier statistics. -/
theorem C9_determinism (champJson champJson' : List Champion)
    (loot loot' : List LootItem) (ownedItems ownedItems' : List OwnedItem)
    (h1 : champJson = champJson') (h2 : loot = loot')
    (h3 : ownedItems = ownedItems') :
    callbackRows champJson loot ownedItems =
        callbackRows champJson' loot' ownedItems' ∧
      shardCategories loot = shardCategories loot' := by
  subst h1
  subst h2
  subst h3
  exact ⟨rfl, rfl⟩

/-- Witness for C9 on the demonstration snapshots. -/
theorem C9_determinism_witness :
    callbackRows demoCatalog demoLoot [⟨266001⟩] =
        callbackRows demoCatalog demoLoot [⟨266001⟩] ∧
      shardCategories demoLoot = shardCategories demoLoot :=
  C9_determinism demoCatalog demoCatalog demoLoot demoLoot [⟨266001⟩] [⟨266001⟩]
    rfl rfl rfl

/-! ### Duplicate-insensitivity of the ownership join -/

theorem ownedStep_congr (champJson : List Champion) (ids1 ids2 : List Int)
    (h : ∀ i : Int, i ∈ ids1 ↔ i ∈ ids2) :
    ownedStep champJson ids1 = ownedStep champJson ids2 := by
  funext d p
  unfold ownedStep
  congr 1
  funext d' skin
  by_cases hm : skin.id ∈ ids1
  · rw [if_pos hm, if_pos ((h skin.id).mp hm)]
  · rw [if_neg hm, if_neg (fun hh => hm ((h skin.id).mpr hh))]

/-- C10: the ownership join only tests membership of a skin's id among
the owned ids, so removing duplicate entries from the owned-items list
leaves the owned-count mapping unchanged. -/
theorem C10_duplicate_insensitivity (skinsByChampionKey : List (String × List Skin))
    (champJson : List Champion) (ownedItems : List OwnedItem) :
    getOwnedSkinsByChampionId skinsByChampionKey champJson ownedItems.dedup =
      getOwnedSkinsByChampionId skinsByChampionKey champJson ownedItems := by
  unfold getOwnedSkinsByChampionId
  rw [ownedStep_congr champJson (ownedItems.dedup.map (fun x => x.itemId))
    (ownedItems.map (fun x => x.itemId)) (by intro i; simp [List.mem_dedup])]
